import Mathlib

/-
Verification of the caching HTTP proxy (src/proxy.c, src/http.c, src/io.c)
against its specification.  The C data structures and functions are embedded
shallowly: C strings become `List Nat` byte lists, the doubly linked LRU list
becomes a `List cache_entry` ordered head (most recently used) first, and the
stateful cache operations become pure functions on that list.  The C fields
`total_size` and `num_entries` are maintained by the code in lockstep with the
list contents (initialised to zero, incremented/decremented on every insert and
eviction), so they are embedded as the derived functions `total_size` and
`num_entries` over the entry list.
-/

/-- Constant from src/proxy.h line 2. -/
def MAX_CACHE_SIZE : Nat := 1049000

/-- Constant from src/proxy.h line 3. -/
def MAX_OBJECT_SIZE : Nat := 102400

/-- Constant from src/io.h line 3. -/
def MAX_LINE : Nat := 8192

/-- Cache entry, from `struct cache_entry` in src/proxy.c lines 27-34.  The
`next`/`prev` links are represented by the position in the embedding list, and
the `last_accessed` timestamp is omitted: the code writes it on every hit and
insert but never reads it (recency is tracked purely by list order). -/
structure cache_entry where
  key : List Nat
  data : List Nat
deriving DecidableEq

/-- `total_size` of the cache (src/proxy.c line 39): the sum of `data_size`
over the entries, which the code maintains by adding on insert (line 206) and
subtracting on eviction (line 113). -/
def total_size (es : List cache_entry) : Nat :=
  (es.map (fun e => e.data.length)).sum

/-- `num_entries` of the cache (src/proxy.c line 40), maintained by the code as
the length of the entry list (lines 114 and 207). -/
def num_entries (es : List cache_entry) : Nat :=
  es.length

/-- The eviction condition of the while loop in `cache_insert`, src/proxy.c
lines 165-166: `total_size + data_size > MAX_CACHE_SIZE || num_entries >= 10`. -/
def evict_cond (d : Nat) (es : List cache_entry) : Bool :=
  decide (MAX_CACHE_SIZE < total_size es + d) || decide (10 ≤ num_entries es)

/-- The eviction loop of `cache_insert` (src/proxy.c lines 165-168), repeatedly
calling `remove_lru_entry` (lines 96-120), which unlinks and frees the tail
entry.  Returns the surviving entries and the evicted entries in eviction order
(tail first).  The loop is written with explicit fuel so that it is structural:
each iteration removes one entry, so fuel equal to the initial length is
exactly the C loop whenever the condition fails on the empty cache, which
holds for every `d ≤ MAX_CACHE_SIZE` and in particular for every size accepted
by `cache_insert` (on the empty cache with a larger `d` the C loop would spin
forever in `remove_lru_entry` no-ops; that state is unreachable from
`cache_insert`). -/
def evict_loop (d : Nat) : Nat → List cache_entry → List cache_entry × List cache_entry
  | _, [] => ([], [])
  | 0, es => (es, [])
  | fuel + 1, e :: tl =>
    if evict_cond d (e :: tl) then
      let r := evict_loop d fuel ((e :: tl).dropLast)
      (r.1, (e :: tl).getLast (List.cons_ne_nil e tl) :: r.2)
    else (e :: tl, [])

/-- The eviction phase of `cache_insert` on a cache state. -/
def evict_tail (d : Nat) (es : List cache_entry) : List cache_entry × List cache_entry :=
  evict_loop d es.length es

/-- `cache_insert` from src/proxy.c lines 155-213: reject objects larger than
`MAX_OBJECT_SIZE` (line 157), run the eviction loop (lines 165-168), then link
a fresh entry holding copies of `key` and `data` at the head (lines 171-207).
Allocation failure (lines 172-185), which leaves the post-eviction cache
unchanged, is not modelled. -/
def cache_insert (es : List cache_entry) (k v : List Nat) : List cache_entry :=
  if MAX_OBJECT_SIZE < v.length then es
  else { key := k, data := v } :: (evict_tail v.length es).1

/-- The scan-and-unlink part of `cache_lookup` (src/proxy.c lines 126-147)
combined with `move_to_front` (lines 62-93): walk the list from the head
comparing keys with `strcmp`; on the first match return the matched entry
together with the list with that entry unlinked (so that the promoted list is
the entry consed onto the second component).  When the match is already at the
head, `move_to_front` returns immediately and the promoted list is unchanged,
which coincides with this embedding. -/
def lookup_scan (k : List Nat) : List cache_entry → Option (cache_entry × List cache_entry)
  | [] => none
  | e :: es =>
    if e.key = k then some (e, es)
    else
      match lookup_scan k es with
      | none => none
      | some (f, rest) => some (f, e :: rest)

/-- `cache_lookup` from src/proxy.c lines 123-152: scan for the key; on a match
whose `data_size` fits the caller's buffer, copy the bytes out, promote the
entry to the front, and return the bytes (C return code 0); on a match that
does not fit the buffer, or no match, return a miss (C return code -1) and
leave the list unchanged.  Result: the returned bytes (if any) and the cache
state after the call. -/
def cache_lookup (es : List cache_entry) (k : List Nat) (buffer_size : Nat) :
    Option (List Nat) × List cache_entry :=
  match lookup_scan k es with
  | none => (none, es)
  | some (e, rest) =>
    if e.data.length ≤ buffer_size then (some e.data, e :: rest)
    else (none, es)

lemma evict_loop_fst_length_le (d : Nat) :
    ∀ (fuel : Nat) (es : List cache_entry), es.length ≤ fuel →
      (evict_loop d fuel es).1.length ≤ 9 := by
  intro fuel
  induction fuel with
  | zero =>
    intro es hlen
    have : es = [] := List.eq_nil_of_length_eq_zero (Nat.le_zero.mp hlen)
    subst this
    simp [evict_loop]
  | succ n ih =>
    intro es hlen
    match es with
    | [] => simp [evict_loop]
    | e :: tl =>
      by_cases hc : evict_cond d (e :: tl)
      · have hdrop : ((e :: tl).dropLast).length ≤ n := by
          simp [List.length_dropLast] at *
          omega
        simpa [evict_loop, hc] using ih ((e :: tl).dropLast) hdrop
      · have : ¬ (10 ≤ num_entries (e :: tl)) := by
          intro h10
          exact hc (by simp [evict_cond, h10])
        simp only [evict_loop, hc, if_false]
        simp [num_entries] at this ⊢
        omega

lemma lookup_scan_key_eq (k : List Nat) :
    ∀ (es : List cache_entry) (e : cache_entry) (rest : List cache_entry),
      lookup_scan k es = some (e, rest) → e.key = k := by
  intro es
  induction es with
  | nil => intro e rest h; simp [lookup_scan] at h
  | cons a tl ih =>
    intro e rest h
    by_cases ha : a.key = k
    · simp [lookup_scan, ha] at h
      rw [← h.1, ha]
    · simp [lookup_scan, ha] at h
      match hsc : lookup_scan k tl with
      | none => rw [hsc] at h; simp at h
      | some (f, r) =>
        rw [hsc] at h
        simp at h
        rw [← h.1]
        exact ih f r hsc

lemma lookup_scan_perm (k : List Nat) :
    ∀ (es : List cache_entry) (e : cache_entry) (rest : List cache_entry),
      lookup_scan k es = some (e, rest) → es.Perm (e :: rest) := by
  intro es
  induction es with
  | nil => intro e rest h; simp [lookup_scan] at h
  | cons a tl ih =>
    intro e rest h
    by_cases ha : a.key = k
    · simp [lookup_scan, ha] at h
      rw [← h.1, ← h.2]
    · simp [lookup_scan, ha] at h
      match hsc : lookup_scan k tl with
      | none => rw [hsc] at h; simp at h
      | some (f, r) =>
        rw [hsc] at h
        simp at h
        have hperm := ih f r hsc
        rw [← h.1, ← h.2]
        exact (hperm.cons a).trans (List.Perm.swap f a r)

lemma cache_lookup_snd_length (es : List cache_entry) (k : List Nat) (b : Nat) :
    (cache_lookup es k b).2.length = es.length := by
  unfold cache_lookup
  match hsc : lookup_scan k es with
  | none => simp
  | some (e, rest) =>
    by_cases hb : e.data.length ≤ b
    · simp only [hb, if_true]
      exact ((lookup_scan_perm k es e rest hsc).length_eq).symm
    · simp [hb]

/-- Concrete cache used to refute claim C3: ten entries with distinct one-byte
keys 97..106, each holding the single byte 0. -/
def c3_cache : List cache_entry :=
  [⟨[97], [0]⟩, ⟨[98], [0]⟩, ⟨[99], [0]⟩, ⟨[100], [0]⟩, ⟨[101], [0]⟩,
   ⟨[102], [0]⟩, ⟨[103], [0]⟩, ⟨[104], [0]⟩, ⟨[105], [0]⟩, ⟨[106], [0]⟩]

/-- Claim C3 is false as stated: on a cache of ten one-byte entries, admitting
a one-byte object satisfies `total_size + |bytes| ≤ MAX_CACHE_SIZE`, yet the
eviction loop of `cache_insert` still evicts the tail entry, because the loop
condition also fires on `num_entries ≥ 10` (src/proxy.c line 166). -/
theorem C3_counterexample :
    total_size c3_cache + 1 ≤ MAX_CACHE_SIZE ∧
    num_entries c3_cache = 10 ∧
    (evict_tail 1 c3_cache).2 ≠ [] ∧
    cache_entry.mk [106] [0] ∈ c3_cache ∧
    cache_entry.mk [106] [0] ∉ cache_insert c3_cache [120] [0] := by
  decide

/-- Claim C3 (amended): `cache_insert` evicts tail entries while
`total_size + |bytes| > MAX_CACHE_SIZE` or `num_entries ≥ 10`; an admit for
which `total_size + |bytes| ≤ MAX_CACHE_SIZE` and `num_entries < 10` both hold
evicts no entry and simply links the new entry at the head. -/
theorem C3_amended (es : List cache_entry) (k v : List Nat)
    (hv : v.length ≤ MAX_OBJECT_SIZE)
    (hsz : total_size es + v.length ≤ MAX_CACHE_SIZE)
    (hn : num_entries es < 10) :
    cache_insert es k v = { key := k, data := v } :: es ∧
    (evict_tail v.length es).2 = [] := by
  have hnot : ¬ MAX_OBJECT_SIZE < v.length := Nat.not_lt.mpr hv
  have hcond : evict_cond v.length es = false := by
    simp only [evict_cond, Bool.or_eq_false_iff, decide_eq_false_iff_not, not_lt, not_le]
    exact ⟨hsz, hn⟩
  have he : evict_tail v.length es = (es, []) := by
    cases es with
    | nil => simp [evict_tail, evict_loop]
    | cons e tl => simp [evict_tail, evict_loop, hcond]
  constructor
  · rw [cache_insert, if_neg hnot, he]
  · rw [he]

/-- Witness for C3_amended at a concrete input. -/
theorem C3_amended_witness :
    ([7] : List Nat).length ≤ MAX_OBJECT_SIZE ∧
    cache_insert [cache_entry.mk [5] [9]] [6] [7] =
      [cache_entry.mk [6] [7], cache_entry.mk [5] [9]] :=
  ⟨by decide,
   (C3_amended [cache_entry.mk [5] [9]] [6] [7] (by decide) (by decide) (by decide)).1⟩

/-- Claim C4 is false as stated: starting from the empty cache, admitting key
107 twice yields two live entries with the same key — `cache_insert`
(src/proxy.c lines 155-213) never searches for an existing entry, it always
links a fresh entry at the head, so invariant I3 (key uniqueness) fails. -/
theorem C4_counterexample :
    cache_insert (cache_insert [] [107] [1]) [107] [2] =
      [{ key := [107], data := [2] }, { key := [107], data := [1] }] ∧
    ¬ List.Nodup (List.map cache_entry.key
        (cache_insert (cache_insert [] [107] [1]) [107] [2])) := by
  decide

/-- Claim C4 (amended): `cache_insert` inserts a fresh entry at the head
unconditionally; when an entry with the same key already exists and survives
the eviction loop, the resulting list contains at least two entries with that
key, so keys are not unique across the list. -/
theorem C4_amended (es : List cache_entry) (k v : List Nat) (e : cache_entry)
    (hv : v.length ≤ MAX_OBJECT_SIZE)
    (he : e ∈ (evict_tail v.length es).1) (hk : e.key = k) :
    2 ≤ (cache_insert es k v).countP (fun x => x.key == k) := by
  have hnot : ¬ MAX_OBJECT_SIZE < v.length := Nat.not_lt.mpr hv
  rw [cache_insert, if_neg hnot]
  have hpos : 0 < (evict_tail v.length es).1.countP (fun x => x.key == k) :=
    List.countP_pos_iff.mpr ⟨e, he, by simp [hk]⟩
  have hhead : (({ key := k, data := v } : cache_entry) :: (evict_tail v.length es).1).countP
      (fun x => x.key == k) = (evict_tail v.length es).1.countP (fun x => x.key == k) + 1 :=
    List.countP_cons_of_pos _ _ (by simp)
  omega

/-- Witness for C4_amended at a concrete input. -/
theorem C4_amended_witness :
    ([7] : List Nat).length ≤ MAX_OBJECT_SIZE ∧
    cache_entry.mk [5] [9] ∈ (evict_tail ([7] : List Nat).length [cache_entry.mk [5] [9]]).1 ∧
    2 ≤ (cache_insert [cache_entry.mk [5] [9]] [5] [7]).countP (fun x => x.key == [5]) :=
  ⟨by decide, by decide,
   C4_amended [cache_entry.mk [5] [9]] [5] [7] (cache_entry.mk [5] [9])
     (by decide) (by decide) (by decide)⟩

/-- Claim C7: after `cache_insert es k v` with `|v| ≤ MAX_OBJECT_SIZE`, an
immediate `cache_lookup` of `k` with the worker's `MAX_OBJECT_SIZE` buffer
(src/proxy.c lines 342, 365) is a hit returning exactly the bytes `v`: the
insert links `⟨k, v⟩` at the head, so the lookup scan matches it first and the
copy-out succeeds because `|v|` fits the buffer. -/
theorem C7_admit_then_lookup (es : List cache_entry) (k v : List Nat)
    (hv : v.length ≤ MAX_OBJECT_SIZE) :
    (cache_lookup (cache_insert es k v) k MAX_OBJECT_SIZE).1 = some v := by
  have hnot : ¬ MAX_OBJECT_SIZE < v.length := Nat.not_lt.mpr hv
  rw [cache_insert, if_neg hnot]
  simp [cache_lookup, lookup_scan, hv]

/-- Witness for C7_admit_then_lookup at a concrete input. -/
theorem C7_witness :
    ([3] : List Nat).length ≤ MAX_OBJECT_SIZE ∧
    (cache_lookup (cache_insert [] [1] [3]) [1] MAX_OBJECT_SIZE).1 = some [3] :=
  ⟨by decide, C7_admit_then_lookup [] [1] [3] (by decide)⟩

/-- Claim C10: the eviction loop of `cache_insert` runs until the entry count
is strictly below 10 (src/proxy.c line 166), so starting from a cache with at
most 10 entries, both `cache_insert` and `cache_lookup` leave at most 10
entries; the post-eviction, pre-insert count is always at most 9. -/
theorem C10_entry_bound (es : List cache_entry) (k v k2 : List Nat) (b : Nat)
    (h : num_entries es ≤ 10) :
    num_entries (cache_insert es k v) ≤ 10 ∧
    num_entries (evict_tail v.length es).1 ≤ 9 ∧
    num_entries (cache_lookup es k2 b).2 = num_entries es := by
  have hev : (evict_tail v.length es).1.length ≤ 9 :=
    evict_loop_fst_length_le v.length es.length es (Nat.le_refl _)
  refine ⟨?_, hev, ?_⟩
  · by_cases hv : MAX_OBJECT_SIZE < v.length
    · simpa [cache_insert, hv] using h
    · rw [cache_insert, if_neg hv]
      simp only [num_entries, List.length_cons]
      omega
  · simp [num_entries, cache_lookup_snd_length]

/-- Witness for C10_entry_bound at a concrete input. -/
theorem C10_witness :
    num_entries [cache_entry.mk [5] [9]] ≤ 10 ∧
    num_entries (cache_insert [cache_entry.mk [5] [9]] [1] [2]) ≤ 10 :=
  ⟨by decide, (C10_entry_bound [cache_entry.mk [5] [9]] [1] [2] [3] 0 (by decide)).1⟩

lemma evict_loop_snd_head (d fuel : Nat) (e : cache_entry) (tl : List cache_entry) :
    (evict_loop d fuel (e :: tl)).2 = [] ∨
    (evict_loop d fuel (e :: tl)).2.head? =
      some ((e :: tl).getLast (List.cons_ne_nil e tl)) := by
  cases fuel with
  | zero => left; simp [evict_loop]
  | succ n =>
    by_cases hc : evict_cond d (e :: tl)
    · right; simp [evict_loop, hc]
    · left; simp [evict_loop, hc]

/-- Concrete cache used to refute claim C8: ten one-byte entries in which the
key 107 occurs twice, at the head and at the tail. -/
def c8_cache : List cache_entry :=
  [⟨[107], [0]⟩, ⟨[98], [0]⟩, ⟨[99], [0]⟩, ⟨[100], [0]⟩, ⟨[101], [0]⟩,
   ⟨[102], [0]⟩, ⟨[103], [0]⟩, ⟨[104], [0]⟩, ⟨[105], [0]⟩, ⟨[107], [0]⟩]

/-- Claim C8 is false as stated: because `cache_insert` can create duplicate
keys, a cache may hold two entries with key 107; `cache_lookup 107` hits the
head entry (promoting nothing), and the following admit of a one-byte object
evicts exactly one entry — the tail — whose key IS 107, contradicting the
claim that the evicted key differs from the hit key. -/
theorem C8_counterexample :
    1 < num_entries c8_cache ∧
    (cache_lookup c8_cache [107] MAX_OBJECT_SIZE).1 = some [0] ∧
    (evict_tail 1 (cache_lookup c8_cache [107] MAX_OBJECT_SIZE).2).2 =
      [cache_entry.mk [107] [0]] := by
  decide

/-- Claim C8 (amended): provided the cache keys are pairwise distinct (the
spec's invariant I3), if the cache holds more than one entry and
`cache_lookup k` hits, then an admit of an object of size `|v2|` performed on
the post-lookup cache that evicts exactly one entry evicts an entry whose key
is not `k`: the hit promoted `k`'s entry to the head, and the single eviction
removes the tail, a different entry with (by distinctness) a different key. -/
theorem C8_amended (es : List cache_entry) (k v v2 : List Nat)
    (hnd : (es.map cache_entry.key).Nodup)
    (hlen : 1 < es.length)
    (hhit : (cache_lookup es k MAX_OBJECT_SIZE).1 = some v)
    (hone : (evict_tail v2.length (cache_lookup es k MAX_OBJECT_SIZE).2).2.length = 1) :
    ∀ e ∈ (evict_tail v2.length (cache_lookup es k MAX_OBJECT_SIZE).2).2, e.key ≠ k := by
  obtain ⟨e0, rest, hsc, hfit, hsnd⟩ :
      ∃ e0 rest, lookup_scan k es = some (e0, rest) ∧
        e0.data.length ≤ MAX_OBJECT_SIZE ∧
        (cache_lookup es k MAX_OBJECT_SIZE).2 = e0 :: rest := by
    unfold cache_lookup at hhit ⊢
    match hsc : lookup_scan k es with
    | none => rw [hsc] at hhit; simp at hhit
    | some (e1, r1) =>
      rw [hsc] at hhit
      by_cases hb : e1.data.length ≤ MAX_OBJECT_SIZE
      · exact ⟨e1, r1, rfl, hb, by simp [hb]⟩
      · simp [hb] at hhit
  have hkey : e0.key = k := lookup_scan_key_eq k es e0 rest hsc
  have hperm : es.Perm (e0 :: rest) := lookup_scan_perm k es e0 rest hsc
  have hrest : rest ≠ [] := by
    have := hperm.length_eq
    simp at this
    intro hnil
    rw [hnil] at this
    simp at this
    omega
  have hnd2 : ((e0 :: rest).map cache_entry.key).Nodup :=
    (hperm.map cache_entry.key).nodup hnd
  have hnotin : e0.key ∉ rest.map cache_entry.key := by
    rw [List.map_cons, List.nodup_cons] at hnd2
    exact hnd2.1
  rw [hsnd] at hone ⊢
  obtain ⟨x, hx⟩ := List.length_eq_one.mp hone
  have hhead := evict_loop_snd_head v2.length (e0 :: rest).length e0 rest
  rw [show evict_tail v2.length (e0 :: rest) = evict_loop v2.length (e0 :: rest).length (e0 :: rest) from rfl] at hone hx ⊢
  rcases hhead with hnil | hsome
  · rw [hnil] at hone; simp at hone
  · rw [hx] at hsome ⊢
    simp at hsome
    intro e he
    simp at he
    subst he
    rw [hsome]
    rw [List.getLast_cons hrest]
    intro hek
    apply hnotin
    rw [hkey.symm] at hek
    rw [← hek]
    exact List.mem_map_of_mem cache_entry.key (List.getLast_mem hrest)

/-- Witness for C8_amended at a concrete input (the distinct-key ten-entry
cache `c3_cache`, hitting the tail key 106, then admitting one byte). -/
theorem C8_amended_witness :
    (c3_cache.map cache_entry.key).Nodup ∧
    (∀ e ∈ (evict_tail 1 (cache_lookup c3_cache [106] MAX_OBJECT_SIZE).2).2,
      e.key ≠ [106]) :=
  ⟨by decide,
   C8_amended c3_cache [106] [0] [0] (by decide) (by decide) (by decide) (by decide)⟩

/-- The two lock modes of a POSIX readers/writer lock. -/
inductive lock_mode where
  | read : lock_mode
  | write : lock_mode
deriving DecidableEq

/-- The lock acquired by `cache_lookup` for its whole body, including the
`move_to_front` promotion: src/proxy.c line 124 calls
`pthread_rwlock_rdlock`, a READ lock. -/
def cache_lookup_lock : lock_mode := lock_mode.read

/-- The lock acquired by `cache_insert`: src/proxy.c line 162 calls
`pthread_rwlock_wrlock`, a write lock. -/
def cache_insert_lock : lock_mode := lock_mode.write

/-- Claim C9 evaluated on the code: a `cache_lookup` that promotes mutates the
shared recency list (here a two-entry cache whose second entry is hit and
moved to the head) while holding only the READ lock, which a POSIX
readers/writer lock grants to many threads at once — so a promoting lookup is
NOT mutually exclusive with other lookups, contradicting the stated
concurrency contract. -/
theorem C9_code_eval :
    cache_lookup_lock = lock_mode.read ∧
    (cache_lookup [cache_entry.mk [97] [0], cache_entry.mk [98] [0]] [98]
        MAX_OBJECT_SIZE).2 =
      [cache_entry.mk [98] [0], cache_entry.mk [97] [0]] ∧
    (cache_lookup [cache_entry.mk [97] [0], cache_entry.mk [98] [0]] [98]
        MAX_OBJECT_SIZE).2 ≠
      [cache_entry.mk [97] [0], cache_entry.mk [98] [0]] := by
  decide

/-- `strstr(buf, "//") + 2` from `parse_uri` (src/http.c line 107): the suffix
after the first occurrence of the two bytes `//` (47 47).  `none` models the
absent case, in which the C adds 2 to a null pointer — undefined behaviour —
so parsing is only defined on URIs containing `//`. -/
def after_dslash : List Nat → Option (List Nat)
  | 47 :: 47 :: rest => some rest
  | _ :: rest => after_dslash rest
  | [] => none

/-- `strchr` as used by `parse_uri` (src/http.c lines 108 and 116): split at
the first occurrence of the byte `c`, returning the parts before and after it
(neither containing `c` itself); `none` when `c` does not occur. -/
def split_at_byte (c : Nat) : List Nat → Option (List Nat × List Nat)
  | [] => none
  | b :: rest =>
    if b = c then some ([], rest)
    else (split_at_byte c rest).map (fun pr => (b :: pr.1, pr.2))

/-- `parse_uri` from src/http.c lines 99-125, yielding
`(hostname, path, port)`: everything after the first `//` is
authority-plus-path; the first `/` there starts the path (default path `/`,
byte 47) and truncates the authority; the first `:` (byte 58) within the
authority separates hostname from port (default port `80`, bytes 56 48). -/
def parse_uri (uri : List Nat) : Option (List Nat × List Nat × List Nat) :=
  match after_dslash uri with
  | none => none
  | some pstart =>
    let ap : List Nat × List Nat :=
      match split_at_byte 47 pstart with
      | none => (pstart, [47])
      | some pr => (pr.1, 47 :: pr.2)
    match split_at_byte 58 ap.1 with
    | none => some (ap.1, ap.2, [56, 48])
    | some pr => some (pr.1, ap.2, pr.2)

/-- The cache key computed by `handle_request` (src/proxy.c lines 362-363):
`snprintf(cache_key, ..., "%s%s", hostname, path)` — the hostname concatenated
with the path.  The snprintf truncation at `2*MAX_LINE - 1` bytes cannot fire
because hostname and path each come from a `MAX_LINE` buffer. -/
def cache_key (uri : List Nat) : Option (List Nat) :=
  (parse_uri uri).map (fun t => t.1 ++ t.2.1)

/-- Claim C2 is false as stated: the URIs `http://h/p` and `http://h:80/p`
are not byte-identical, yet `handle_request` derives the same cache key
`h/p` for both (the port is dropped), so after the first URI's response is
admitted, a request for the second URI is served from the same cache entry. -/
theorem C2_counterexample :
    ([104, 116, 116, 112, 58, 47, 47, 104, 47, 112] : List Nat) ≠
      [104, 116, 116, 112, 58, 47, 47, 104, 58, 56, 48, 47, 112] ∧
    cache_key [104, 116, 116, 112, 58, 47, 47, 104, 47, 112] = some [104, 47, 112] ∧
    cache_key [104, 116, 116, 112, 58, 47, 47, 104, 58, 56, 48, 47, 112] =
      some [104, 47, 112] ∧
    (cache_lookup
        (cache_insert []
          ((cache_key [104, 116, 116, 112, 58, 47, 47, 104, 47, 112]).getD []) [7])
        ((cache_key [104, 116, 116, 112, 58, 47, 47, 104, 58, 56, 48, 47, 112]).getD [])
        MAX_OBJECT_SIZE).1 = some [7] := by
  decide

/-- Claim C2 (amended): the key `handle_request` uses for both lookup and
admission is the concatenation `hostname ++ path` produced by `parse_uri`
(scheme and port are dropped), and a request is served from a cache entry only
if that entry's key is byte-identical to this concatenation; byte-identity of
the full request-line URI is not required. -/
theorem C2_amended (uri h p q : List Nat) (es : List cache_entry)
    (e : cache_entry) (rest : List cache_entry)
    (hu : parse_uri uri = some (h, p, q))
    (hs : lookup_scan (h ++ p) es = some (e, rest)) :
    cache_key uri = some (h ++ p) ∧ e.key = h ++ p := by
  constructor
  · rw [cache_key, hu]; rfl
  · exact lookup_scan_key_eq _ es e rest hs

/-- Witness for C2_amended at a concrete input. -/
theorem C2_amended_witness :
    cache_key [104, 116, 116, 112, 58, 47, 47, 104, 47, 112] =
      some ([104] ++ [47, 112]) ∧
    (cache_entry.mk [104, 47, 112] [7]).key = [104] ++ [47, 112] :=
  C2_amended [104, 116, 116, 112, 58, 47, 47, 104, 47, 112] [104] [47, 112] [56, 48]
    [cache_entry.mk [104, 47, 112] [7]] (cache_entry.mk [104, 47, 112] [7]) []
    (by decide) (by decide)

/-- One iteration of the staging-buffer accumulation in `handle_request`
(src/proxy.c lines 399-403): the chunk just relayed to the client is appended
to the staging buffer iff it still fits within `MAX_OBJECT_SIZE`
(`total_response_size` is maintained as exactly the length of the bytes
captured so far); a chunk that does not fit is skipped, but the loop keeps
relaying and keeps the bytes captured so far. -/
def capture_step (acc chunk : List Nat) : List Nat :=
  if acc.length + chunk.length ≤ MAX_OBJECT_SIZE then acc ++ chunk else acc

/-- The relay loop of `handle_request` (src/proxy.c lines 391-404) restricted
to its effect on the staging buffer: `chunks` are the successive payloads
returned by `read(server_fd, buf, MAX_LINE)`, each of size at most `MAX_LINE`,
the final zero-byte read ending the loop. -/
def capture (chunks : List (List Nat)) : List Nat :=
  chunks.foldl capture_step []

/-- The admission test of `handle_request` (src/proxy.c line 407):
`total_response_size > 0 && total_response_size <= MAX_OBJECT_SIZE`. -/
def admission_test (chunks : List (List Nat)) : Bool :=
  decide (0 < (capture chunks).length) &&
    decide ((capture chunks).length ≤ MAX_OBJECT_SIZE)

/-- Length abstraction of `capture_step`. -/
def capture_len_step (t c : Nat) : Nat :=
  if t + c ≤ MAX_OBJECT_SIZE then t + c else t

lemma capture_foldl_length :
    ∀ (chunks : List (List Nat)) (acc : List Nat),
      (chunks.foldl capture_step acc).length =
        (chunks.map List.length).foldl capture_len_step acc.length := by
  intro chunks
  induction chunks with
  | nil => intro acc; simp
  | cons c tl ih =>
    intro acc
    simp only [List.foldl_cons, List.map_cons]
    rw [ih]
    congr 1
    unfold capture_step capture_len_step
    by_cases h : acc.length + c.length ≤ MAX_OBJECT_SIZE
    · simp [h]
    · simp [h]

/-- Claim C1 evaluated on the code: an origin response of 106,497 bytes
(thirteen full 8,192-byte reads followed by a 1-byte read) exceeds
`MAX_OBJECT_SIZE`, yet `handle_request` still admits: the 13th chunk is
skipped (it would overflow the staging buffer) but the final 1-byte chunk is
appended again, so the captured 98,305 bytes pass the admission test while
differing from the origin's response bytes. -/
theorem C1_code_eval :
    MAX_OBJECT_SIZE <
      (List.flatten (List.replicate 13 (List.replicate 8192 (0 : Nat)) ++ [[0]])).length ∧
    admission_test (List.replicate 13 (List.replicate 8192 (0 : Nat)) ++ [[0]]) = true ∧
    capture (List.replicate 13 (List.replicate 8192 (0 : Nat)) ++ [[0]]) ≠
      List.flatten (List.replicate 13 (List.replicate 8192 (0 : Nat)) ++ [[0]]) := by
  have hmap : (List.replicate 13 (List.replicate 8192 (0 : Nat)) ++ [[0]]).map List.length
      = List.replicate 13 8192 ++ [1] := by
    rw [List.map_append, List.map_replicate, List.length_replicate]
    rfl
  have hcap : (capture (List.replicate 13 (List.replicate 8192 (0 : Nat)) ++ [[0]])).length
      = 98305 := by
    rw [capture, capture_foldl_length, hmap]
    decide
  have hjoin : (List.flatten (List.replicate 13 (List.replicate 8192 (0 : Nat)) ++ [[0]])).length
      = 106497 := by
    rw [List.length_flatten, hmap]
    decide
  refine ⟨?_, ?_, ?_⟩
  · rw [hjoin]; decide
  · rw [admission_test, hcap]; decide
  · intro heq
    have hlen := congrArg List.length heq
    rw [hcap, hjoin] at hlen
    exact absurd hlen (by decide)

/-- The result of one `read(fd, bf, 1)` call as observed by `read_line`
(src/io.c line 49): a byte was read, end-of-file (return value 0), or an I/O
error (a negative return value, embedded as the single value `err`, rendered
-1). -/
inductive read_result where
  | byte : Nat → read_result
  | eof : read_result
  | err : read_result
deriving DecidableEq

/-- The loop of `read_line` (src/io.c lines 41-58), with `n` the number of
bytes read so far.  The stream lists the results of the successive one-byte
reads; `[]` denotes a descriptor that keeps reporting EOF.  On `read <= 0`
the C function returns that return value directly (line 51); on a newline it
returns the updated count (line 54); when the updated count reaches
`MAX_LINE` without a newline it falls out of the loop and returns 0
(line 58). -/
def read_line_aux (n : Nat) : List read_result → Int
  | [] => 0
  | r :: rest =>
    match r with
    | .err => -1
    | .eof => 0
    | .byte b =>
      if b = 10 then ((n + 1 : Nat) : Int)
      else if n + 1 < MAX_LINE then read_line_aux (n + 1) rest
      else 0

/-- `read_line` from src/io.c lines 36-59. -/
def read_line (s : List read_result) : Int :=
  read_line_aux 0 s

lemma read_line_aux_newline :
    ∀ (bs : List Nat) (n : Nat), (∀ b ∈ bs, b ≠ 10) → n + bs.length + 1 ≤ MAX_LINE →
      read_line_aux n (bs.map read_result.byte ++ [read_result.byte 10]) =
        ((n + bs.length + 1 : Nat) : Int) := by
  intro bs
  induction bs with
  | nil =>
    intro n _ _
    simp [read_line_aux]
  | cons b tl ih =>
    intro n hb hle
    have hbne : b ≠ 10 := hb b (List.mem_cons_self b tl)
    have hlt : n + 1 < MAX_LINE := by
      simp only [List.length_cons] at hle
      omega
    simp only [List.map_cons, List.cons_append, read_line_aux, List.append_eq]
    rw [if_neg hbne, if_pos hlt]
    rw [ih (n + 1) (fun x hx => hb x (List.mem_cons_of_mem b hx)) (by
      simp only [List.length_cons] at hle
      omega)]
    norm_cast
    simp only [List.length_cons]
    omega

lemma read_line_aux_eof :
    ∀ (bs : List Nat) (n : Nat), (∀ b ∈ bs, b ≠ 10) → n + bs.length < MAX_LINE →
      read_line_aux n (bs.map read_result.byte ++ [read_result.eof]) = 0 := by
  intro bs
  induction bs with
  | nil =>
    intro n _ _
    simp [read_line_aux]
  | cons b tl ih =>
    intro n hb hlt
    have hbne : b ≠ 10 := hb b (List.mem_cons_self b tl)
    have hlt1 : n + 1 < MAX_LINE := by
      simp only [List.length_cons] at hlt
      omega
    simp only [List.map_cons, List.cons_append, read_line_aux, List.append_eq]
    rw [if_neg hbne, if_pos hlt1]
    exact ih (n + 1) (fun x hx => hb x (List.mem_cons_of_mem b hx)) (by
      simp only [List.length_cons] at hlt
      omega)

lemma read_line_aux_err :
    ∀ (bs : List Nat) (n : Nat), (∀ b ∈ bs, b ≠ 10) → n + bs.length < MAX_LINE →
      read_line_aux n (bs.map read_result.byte ++ [read_result.err]) = -1 := by
  intro bs
  induction bs with
  | nil =>
    intro n _ _
    simp [read_line_aux]
  | cons b tl ih =>
    intro n hb hlt
    have hbne : b ≠ 10 := hb b (List.mem_cons_self b tl)
    have hlt1 : n + 1 < MAX_LINE := by
      simp only [List.length_cons] at hlt
      omega
    simp only [List.map_cons, List.cons_append, read_line_aux, List.append_eq]
    rw [if_neg hbne, if_pos hlt1]
    exact ih (n + 1) (fun x hx => hb x (List.mem_cons_of_mem b hx)) (by
      simp only [List.length_cons] at hlt
      omega)

lemma read_line_aux_maxline :
    ∀ (bs : List Nat) (n : Nat), (∀ b ∈ bs, b ≠ 10) → MAX_LINE ≤ n + bs.length →
      n < MAX_LINE → read_line_aux n (bs.map read_result.byte) = 0 := by
  intro bs
  induction bs with
  | nil =>
    intro n _ hge hlt
    simp only [List.length_nil, Nat.add_zero] at hge
    omega
  | cons b tl ih =>
    intro n hb hge hlt
    have hbne : b ≠ 10 := hb b (List.mem_cons_self b tl)
    simp only [List.map_cons, read_line_aux]
    rw [if_neg hbne]
    by_cases h1 : n + 1 < MAX_LINE
    · rw [if_pos h1]
      exact ih (n + 1) (fun x hx => hb x (List.mem_cons_of_mem b hx)) (by
        simp only [List.length_cons] at hge
        omega) h1
    · rw [if_neg h1]

/-- Claim C6 is false as stated: a stream delivering two non-newline bytes and
then EOF makes `read_line` return 0 although two bytes had already been read —
the claim asserts 0 is returned only on EOF before any byte.  A stream of
`MAX_LINE` non-newline bytes also returns 0 rather than the byte count. -/
theorem C6_counterexample :
    read_line [read_result.byte 97, read_result.byte 98, read_result.eof] = 0 ∧
    [read_result.byte 97, read_result.byte 98, read_result.eof] ≠
      ([] : List read_result) ∧
    List.head? [read_result.byte 97, read_result.byte 98, read_result.eof] ≠
      some read_result.eof := by
  decide

/-- Claim C6 (amended): `read_line` reads one byte at a time until a `\n` is
seen or `MAX_LINE` bytes have been read.  When the newline arrives within the
cap it returns the byte count including the terminator; it returns zero
whenever EOF is reported before a newline (no matter how many bytes were
already read) and also when `MAX_LINE` bytes were read without a newline; it
returns a negative value on I/O error before a newline. -/
theorem C6_amended (bs : List Nat) (h10 : ∀ b ∈ bs, b ≠ 10) :
    (bs.length + 1 ≤ MAX_LINE →
      read_line (bs.map read_result.byte ++ [read_result.byte 10]) =
        ((bs.length + 1 : Nat) : Int)) ∧
    (bs.length < MAX_LINE →
      read_line (bs.map read_result.byte ++ [read_result.eof]) = 0) ∧
    (bs.length < MAX_LINE →
      read_line (bs.map read_result.byte ++ [read_result.err]) = -1) ∧
    (MAX_LINE ≤ bs.length →
      read_line (bs.map read_result.byte) = 0) := by
  refine ⟨?_, ?_, ?_, ?_⟩
  · intro h
    have := read_line_aux_newline bs 0 h10 (by omega)
    simpa [read_line] using this
  · intro h
    have := read_line_aux_eof bs 0 h10 (by omega)
    simpa [read_line] using this
  · intro h
    have := read_line_aux_err bs 0 h10 (by omega)
    simpa [read_line] using this
  · intro h
    have hml : 0 < MAX_LINE := by decide
    have := read_line_aux_maxline bs 0 h10 (by omega) hml
    simpa [read_line] using this

/-- Witness for C6_amended at a concrete input. -/
theorem C6_amended_witness :
    ([97, 98] : List Nat).length + 1 ≤ MAX_LINE ∧
    read_line ([97, 98].map read_result.byte ++ [read_result.byte 10]) = (3 : Int) :=
  ⟨by decide, (C6_amended [97, 98] (by decide)).1 (by decide)⟩

/-- ASCII lowercase conversion, as `strncasecmp` performs per byte. -/
def lower_byte (b : Nat) : Nat :=
  if 65 ≤ b ∧ b ≤ 90 then b + 32 else b

/-- `strncasecmp(line, pat, strlen(pat)) == 0` for a NUL-free pattern `pat`:
the first `|pat|` bytes of `line` match `pat` case-insensitively (a shorter
`line` fails the comparison at its terminating NUL, as in C). -/
def ci_starts (pat line : List Nat) : Bool :=
  (line.take pat.length).map lower_byte == pat.map lower_byte

/-- Bytes of the C literal `"\r\n"` (`BLANK_LINE`, src/http.c lines 12-13). -/
def blank_line : List Nat := [13, 10]

/-- Bytes of `"Host:"` (src/http.c line 65). -/
def host_key : List Nat := [72, 111, 115, 116, 58]

/-- Bytes of `"User-Agent:"` (src/http.c line 73). -/
def user_agent_key : List Nat := [85, 115, 101, 114, 45, 65, 103, 101, 110, 116, 58]

/-- Bytes of `"Connection:"` (src/http.c line 74). -/
def connection_key : List Nat := [67, 111, 110, 110, 101, 99, 116, 105, 111, 110, 58]

/-- Bytes of `"Proxy-Connection:"` (src/http.c line 75). -/
def proxy_connection_key : List Nat :=
  [80, 114, 111, 120, 121, 45, 67, 111, 110, 110, 101, 99, 116, 105, 111, 110, 58]

/-- The default host field: bytes of the C literal `HOST_FLD_FMT`
`"Host: %s：%s\r\n"` (src/http.c lines 6-7) after sprintf substitution
(src/http.c line 46).  The separator between hostname and port in the source
file is the three UTF-8 bytes 239 188 154 encoding U+FF1A (a fullwidth colon),
not the single ASCII colon byte 58. -/
def host_fld (hostname port : List Nat) : List Nat :=
  [72, 111, 115, 116, 58, 32] ++ hostname ++ [239, 188, 154] ++ port ++ [13, 10]

/-- The default host field as the specification words it:
`Host: <hostname>:<port>\r\n` with the ASCII colon 0x3A separating hostname
from port.  Stated only for comparison against the source's `host_fld`. -/
def host_fld_as_specified (hostname port : List Nat) : List Nat :=
  [72, 111, 115, 116, 58, 32] ++ hostname ++ [58] ++ port ++ [13, 10]

/-- Bytes of `REQUEST_LINE_FMT` `"GET %s HTTP/1.0\r\n"` (src/http.c lines 2-3)
after sprintf substitution of the path (src/http.c line 40). -/
def request_line (path : List Nat) : List Nat :=
  [71, 69, 84, 32] ++ path ++ [32, 72, 84, 84, 80, 47, 49, 46, 48, 13, 10]

/-- Bytes of `USER_AGENT_FLD` (src/http.c lines 4-5). -/
def user_agent_fld : List Nat :=
  [85, 115, 101, 114, 45, 65, 103, 101, 110, 116, 58, 32, 77, 111, 122, 105, 108,
   108, 97, 47, 53, 46, 48, 32, 40, 88, 49, 49, 59, 32, 76, 105, 110, 117, 120,
   32, 120, 56, 54, 95, 54, 52, 59, 32, 114, 118, 58, 49, 48, 46, 48, 46, 51,
   41, 32, 71, 101, 99, 107, 111, 47, 50, 48, 49, 50, 48, 51, 48, 53, 32, 70,
   105, 114, 101, 102, 111, 120, 47, 49, 48, 46, 48, 46, 51, 13, 10]

/-- Bytes of `CONNECTION_FLD` `"Connection: close\r\n"` (src/http.c
lines 8-9). -/
def connection_fld : List Nat :=
  [67, 111, 110, 110, 101, 99, 116, 105, 111, 110, 58, 32, 99, 108, 111, 115,
   101, 13, 10]

/-- Bytes of `PROXY_CONNECTION_FLD` `"Proxy-Connection: close\r\n"`
(src/http.c lines 10-11). -/
def proxy_connection_fld : List Nat :=
  [80, 114, 111, 120, 121, 45, 67, 111, 110, 110, 101, 99, 116, 105, 111, 110,
   58, 32, 99, 108, 111, 115, 101, 13, 10]

/-- The header-reading loop of `set_request_header` (src/http.c lines 49-82)
over the client's header lines, each line as delivered by `read_line`
(terminator included): stop at the blank line; a `Host:` line (matched
case-insensitively) replaces the host field with the client's line verbatim;
`User-Agent:`, `Connection:` and `Proxy-Connection:` lines are dropped; every
other line is appended verbatim to the passthrough block.  `none` models
`read_line` reporting EOF or error before the blank line, on which the C
returns failure (line 54). -/
def srh_loop (host other : List Nat) : List (List Nat) → Option (List Nat × List Nat)
  | [] => none
  | line :: rest =>
    if ci_starts blank_line line then some (host, other)
    else if ci_starts host_key line then srh_loop line other rest
    else if ci_starts user_agent_key line || ci_starts connection_key line ||
        ci_starts proxy_connection_key line then srh_loop host other rest
    else srh_loop host (other ++ line) rest

/-- `set_request_header` from src/http.c lines 28-96: synthesize the request
line and the default host field, run the header loop, then emit request line,
host field, the fixed User-Agent, the passthrough block, `Connection: close`,
`Proxy-Connection: close` and a terminating blank line. -/
def set_request_header (hostname path port : List Nat)
    (client_lines : List (List Nat)) : Option (List Nat) :=
  match srh_loop (host_fld hostname port) [] client_lines with
  | none => none
  | some pr =>
    some (request_line path ++ pr.1 ++ user_agent_fld ++ pr.2 ++
      connection_fld ++ proxy_connection_fld ++ blank_line)

/-- Claim C5 evaluated on the code: for hostname `h` (byte 104) and port `80`
(bytes 56 48) with a client that supplies no Host header (only the
terminating blank line), the rewriter emits the default Host field, and that
field's hostname/port separator is the byte sequence 239 188 154 — the UTF-8
encoding of U+FF1A (fullwidth colon) from `HOST_FLD_FMT` at src/http.c
line 7 — so the emitted field is not the `Host: <hostname>:<port>\r\n` with
ASCII colon 0x3A that the claim states. -/
theorem C5_code_eval :
    set_request_header [104] [47] [56, 48] [[13, 10]] =
      some (request_line [47] ++ host_fld [104] [56, 48] ++ user_agent_fld ++
        connection_fld ++ proxy_connection_fld ++ blank_line) ∧
    host_fld [104] [56, 48] =
      [72, 111, 115, 116, 58, 32, 104, 239, 188, 154, 56, 48, 13, 10] ∧
    host_fld [104] [56, 48] ≠ host_fld_as_specified [104] [56, 48] := by
  decide
